import Mathlib

/-!
Shallow embedding of the `autoplay` chat bot (src/main.rs).

The program connects to a Twitch chat session, joins the configured
channels, and answers every accepted `!play` trigger message with a
literal `!play` reply, throttled by a single global cooldown timestamp.

Modelling conventions:
  * `std::time::Instant` and `Duration` are modelled as `Nat` seconds on
    the monotonic clock; `Instant + Duration` becomes `Nat` addition.
  * Reading the clock (`Instant::now()`) becomes an explicit `now`
    parameter.
  * The transport (twitchchat `AsyncRunner`) is modelled by oracles:
    connect and join outcomes are inputs, outbound sends are collected in
    an output list, and the event stream of `run` is a finite trace of
    steps.
  * Fallible operations return `Except String`; the `String` carries the
    error message where the source formats one.
-/

/-- Mirrors `struct Config` from main.rs: identity credentials (opaque to
the core, passed through to the transport), the ordered channel list
(duplicates preserved), and the cooldown duration in seconds. -/
structure Config where
  user_config : String
  channels : List String
  wait_seconds : Nat
  deriving DecidableEq

/-- Mirrors twitchchat `Privmsg`: the fields the program reads — sender
name, originating channel, message text. -/
structure Privmsg where
  name : String
  channel : String
  data : String
  deriving DecidableEq

/-- Inbound chat commands: the program only distinguishes `Privmsg` from
every other command (`Join`, `Notice`, ...), so the rest share one
constructor carrying an opaque tag. -/
inductive Commands where
  | privmsg (p : Privmsg)
  | other (tag : String)
  deriving DecidableEq

/-- An outbound chat message, produced by `commands::privmsg(channel, text)`. -/
structure Send where
  channel : String
  text : String
  deriving DecidableEq

/-- Mirrors `struct App`: the configuration, the bot's own username (from
`runner.identity`), and the cooldown state `next_allowed`. -/
structure App where
  config : Config
  username : String
  next_allowed : Nat
  deriving DecidableEq

/-! ### String primitives used by `is_interesting`

Rust's `str::trim` strips the Unicode `White_Space` characters from both
ends; `to_ascii_lowercase` maps only the ASCII letters `A`-`Z`. Both are
reproduced here character by character. -/

/-- Rust `char::is_whitespace`: membership in the Unicode `White_Space`
set. -/
def isRustWhitespace (c : Char) : Bool :=
  let n := c.toNat
  n == 0x09 || n == 0x0A || n == 0x0B || n == 0x0C || n == 0x0D ||
  n == 0x20 || n == 0x85 || n == 0xA0 || n == 0x1680 ||
  (0x2000 ≤ n && n ≤ 0x200A) ||
  n == 0x2028 || n == 0x2029 || n == 0x202F || n == 0x205F || n == 0x3000

/-- Rust `str::trim`: drop whitespace from both ends. -/
def rustTrim (s : String) : String :=
  String.mk (((s.data.dropWhile isRustWhitespace).reverse.dropWhile
    isRustWhitespace).reverse)

/-- Rust `char::to_ascii_lowercase` on one character. -/
def toAsciiLowerChar (c : Char) : Char :=
  if 0x41 ≤ c.toNat ∧ c.toNat ≤ 0x5A then Char.ofNat (c.toNat + 0x20) else c

/-- Rust `str::to_ascii_lowercase`. -/
def toAsciiLowercase (s : String) : String :=
  String.mk (s.data.map toAsciiLowerChar)

/-- Rust `str::ends_with` for a string pattern: suffix test. -/
def endsWithStr (s pat : String) : Bool :=
  List.isSuffixOf pat.data s.data

/-! ### The message filter, cooldown gate and reply dispatch -/

/-- Mirrors `App::is_interesting`: reject messages from the bot itself,
reject senders whose name ends in `"bot"`, then accept exactly when the
trimmed, ASCII-lowercased text is `"!play"`. -/
def App.is_interesting (s : App) (privmsg : Privmsg) : Bool :=
  if privmsg.name = s.username then
    false
  else if endsWithStr privmsg.name "bot" then
    false
  else
    let text := toAsciiLowercase (rustTrim privmsg.data)
    if text ≠ "!play" then
      false
    else
      true

/-- Mirrors `App::dont_spam`: with the current instant `now` passed
explicitly, return `true` (blocked) when `now` is strictly before
`next_allowed`, leaving the state untouched; otherwise return `false`
(allowed) and advance `next_allowed` to `now + wait_seconds`. -/
def App.dont_spam (s : App) (now : Nat) : Bool × App :=
  if now < s.next_allowed then
    (true, s)
  else
    (false, { s with next_allowed := now + s.config.wait_seconds })

/-- Mirrors `App::say_play`: encode one outbound `!play` privmsg to the
given channel. -/
def say_play (channel : String) : List Send :=
  [⟨channel, "!play"⟩]

/-- Mirrors `App::handle`: non-privmsg commands are ignored; a privmsg is
filtered by `is_interesting`, then gated by `dont_spam`, and only then is
the reply sent. Returns the new state and the list of outbound sends. -/
def App.handle (s : App) (now : Nat) (message : Commands) : App × List Send :=
  match message with
  | Commands.other _ => (s, [])
  | Commands.privmsg privmsg =>
    if ¬ s.is_interesting privmsg then
      (s, [])
    else
      match s.dont_spam now with
      | (true, s1) => (s1, [])
      | (false, s1) => (s1, say_play privmsg.channel)

/-! ### The session loop -/

/-- One delivered message event of the trace: the instant at which it is
handled, the command, and the transport's outcome should a send be
attempted while handling it (`none` = the send would succeed). -/
structure MsgEvent where
  time : Nat
  cmd : Commands
  sendErr : Option String
  deriving DecidableEq

/-- One observation of the transport inside the loop of `App::run`:
a delivered message (`Status::Message`), a non-message status ending the
session normally, or a transport error from `next_message()`. -/
inductive Step where
  | message (ev : MsgEvent)
  | sessionEnd
  | transportErr (e : String)
  deriving DecidableEq

/-- One loop iteration on a delivered message: run `handle`; if it
attempted a send and the transport fails that send, the error
propagates. -/
def runStep (s : App) (ev : MsgEvent) : Except String (App × List Send) :=
  let r := s.handle ev.time ev.cmd
  match ev.sendErr, r.2 with
  | some e, _ :: _ => Except.error e
  | some _, [] => Except.ok r
  | none, _ => Except.ok r

/-- Mirrors `App::run` over a finite trace of transport observations:
loop on message events, stop with `Ok` at the first non-message status,
propagate the first transport error. An exhausted trace returns the
state reached so far. The accumulated list records every outbound send. -/
def App.run (s : App) : List Step → Except String (App × List Send)
  | [] => Except.ok (s, [])
  | Step.sessionEnd :: _ => Except.ok (s, [])
  | Step.transportErr e :: _ => Except.error e
  | Step.message ev :: rest =>
    match runStep s ev with
    | Except.error e => Except.error e
    | Except.ok (s1, sends) =>
      match s1.run rest with
      | Except.error e => Except.error e
      | Except.ok (s2, more) => Except.ok (s2, sends ++ more)

/-! ### Session establishment -/

/-- Join the channels one after another, starting at call index `k`:
mirrors the `for channel in &config.channels { runner.join(&channel).await? }`
loop. `joinRes i c` is the transport's outcome for the `i`-th join
request (`none` = success); the result collects the successfully joined
channels in order, or the first failure. -/
def joinAll (joinRes : Nat → String → Option String) :
    Nat → List String → Except String (List String)
  | _, [] => Except.ok []
  | k, c :: rest =>
    match joinRes k c with
    | some e => Except.error e
    | none =>
      match joinAll joinRes (k + 1) rest with
      | Except.error e => Except.error e
      | Except.ok js => Except.ok (c :: js)

/-- Mirrors `App::connect`: open the transport (outcome `connectRes`,
yielding the session identity's username on success), join every
configured channel in order, then initialize `next_allowed` to the
connection instant `t` (`Instant::now()` taken after the joins). On
success also reports the ordered list of joined channels. -/
def App.connect (connectRes : Except String String)
    (joinRes : Nat → String → Option String) (t : Nat) (config : Config) :
    Except String (App × List String) :=
  match connectRes with
  | Except.error e => Except.error e
  | Except.ok username =>
    match joinAll joinRes 0 config.channels with
    | Except.error e => Except.error e
    | Except.ok joined => Except.ok (⟨config, username, t⟩, joined)

/-! ### Configuration loading -/

/-- Mirrors `Config::load`: `readFile` is the outcome of
`fs::read_to_string(p)` and `parseToml` of `toml::from_str`. The read
error is wrapped with the context message naming the path; the parse
error with the fixed context message `"couldn't parse config file"`
(the underlying toml error carries line and column, never the path). -/
def Config.load (p : String) (readFile : Except String String)
    (parseToml : String → Option Config) : Except String Config :=
  match readFile with
  | Except.error _ => Except.error ("couldn't read config file " ++ p)
  | Except.ok contents =>
    match parseToml contents with
    | none => Except.error "couldn't parse config file"
    | some config => Except.ok config

/-- Mirrors `main` up to the session loop: load the configuration, then
connect; a configuration error is reported before the transport oracles
are ever consulted. -/
def mainFlow (p : String) (readFile : Except String String)
    (parseToml : String → Option Config) (connectRes : Except String String)
    (joinRes : Nat → String → Option String) (t : Nat) :
    Except String (App × List String) :=
  match Config.load p readFile parseToml with
  | Except.error e => Except.error e
  | Except.ok config => App.connect connectRes joinRes t config

/-! ### Substring test (used to state what the error messages report) -/

/-- Boolean list-prefix test. -/
def listPre : List Char → List Char → Bool
  | [], _ => true
  | _ :: _, [] => false
  | a :: as, b :: bs => a == b && listPre as bs

/-- Does `pat` occur as a contiguous sublist of the second argument? -/
def listSub (pat : List Char) : List Char → Bool
  | [] => listPre pat []
  | c :: rest => listPre pat (c :: rest) || listSub pat rest

/-- Does the string `pat` occur inside `hay`? -/
def strContainsSub (hay pat : String) : Bool :=
  listSub pat.data hay.data

/-! ### Helper lemmas -/

lemma listPre_refl (l : List Char) : listPre l l = true := by
  induction l with
  | nil => rfl
  | cons a as ih => simp [listPre, ih]

lemma listSub_of_append (pre pat : List Char) :
    listSub pat (pre ++ pat) = true := by
  induction pre with
  | nil =>
    cases pat with
    | nil => rfl
    | cons c rest => simp [listSub, listPre_refl]
  | cons c pre ih => simp [listSub, ih]

lemma strContainsSub_of_append (a p : String) :
    strContainsSub (a ++ p) p = true := by
  unfold strContainsSub
  rw [String.data_append]
  exact listSub_of_append a.data p.data

lemma dont_spam_blocked (s : App) (now : Nat) (h : now < s.next_allowed) :
    s.dont_spam now = (true, s) := by
  simp [App.dont_spam, h]

lemma dont_spam_allowed (s : App) (now : Nat) (h : s.next_allowed ≤ now) :
    s.dont_spam now
      = (false, { s with next_allowed := now + s.config.wait_seconds }) := by
  simp [App.dont_spam, Nat.not_lt.mpr h]

lemma dont_spam_blocked_frame (s : App) (now : Nat)
    (h : (s.dont_spam now).1 = true) : (s.dont_spam now).2 = s := by
  by_cases hc : now < s.next_allowed
  · simp [App.dont_spam, hc]
  · simp [App.dont_spam, hc] at h

lemma dont_spam_mono (s : App) (now : Nat) :
    s.next_allowed ≤ ((s.dont_spam now).2).next_allowed := by
  by_cases hc : now < s.next_allowed
  · simp [App.dont_spam, hc]
  · simp [App.dont_spam, hc]
    omega

lemma handle_mono (s : App) (now : Nat) (m : Commands) :
    s.next_allowed ≤ ((s.handle now m).1).next_allowed := by
  have hm := dont_spam_mono s now
  cases m with
  | other tag => simp [App.handle]
  | privmsg p =>
    by_cases hi : s.is_interesting p
    · rcases hd : s.dont_spam now with ⟨b, s1⟩
      rw [hd] at hm
      cases b <;> simp [App.handle, hi, hd] <;> exact hm
    · simp [App.handle, hi]

lemma runStep_mono (s : App) (ev : MsgEvent) (s1 : App) (sends : List Send)
    (h : runStep s ev = Except.ok (s1, sends)) :
    s.next_allowed ≤ s1.next_allowed := by
  have hm := handle_mono s ev.time ev.cmd
  rcases hh : s.handle ev.time ev.cmd with ⟨sh, sendsh⟩
  rw [hh] at hm
  cases hse : ev.sendErr with
  | none =>
    simp [runStep, hh, hse] at h
    rw [← h.1]
    exact hm
  | some e =>
    cases sendsh with
    | nil =>
      simp [runStep, hh, hse] at h
      rw [← h.1]
      exact hm
    | cons x xs => simp [runStep, hh, hse] at h

lemma run_mono : ∀ (steps : List Step) (s s2 : App) (sends : List Send),
    App.run s steps = Except.ok (s2, sends) →
    s.next_allowed ≤ s2.next_allowed := by
  intro steps
  induction steps with
  | nil =>
    intro s s2 sends h
    simp [App.run] at h
    rw [← h.1]
  | cons st rest ih =>
    intro s s2 sends h
    cases st with
    | sessionEnd =>
      simp [App.run] at h
      rw [← h.1]
    | transportErr e => simp [App.run] at h
    | message ev =>
      cases hrs : runStep s ev with
      | error e => simp [App.run, hrs] at h
      | ok pr =>
        rcases pr with ⟨s1, sends1⟩
        cases hr : App.run s1 rest with
        | error e => simp [App.run, hrs, hr] at h
        | ok pr2 =>
          rcases pr2 with ⟨s3, more⟩
          simp [App.run, hrs, hr] at h
          have h1 := runStep_mono s ev s1 sends1 hrs
          have h2 := ih s1 s3 more hr
          rw [← h.1]
          exact Nat.le_trans h1 h2

lemma joinAll_all_none (joinRes : Nat → String → Option String)
    (h : ∀ i c, joinRes i c = none) :
    ∀ (l : List String) (k : Nat), joinAll joinRes k l = Except.ok l := by
  intro l
  induction l with
  | nil => intro k; rfl
  | cons c rest ih => intro k; simp [joinAll, h, ih]

lemma joinAll_ok_inv (joinRes : Nat → String → Option String) :
    ∀ (l : List String) (k : Nat) (js : List String),
      joinAll joinRes k l = Except.ok js →
      js = l ∧ ∀ i (h : i < l.length), joinRes (k + i) (l.get ⟨i, h⟩) = none := by
  intro l
  induction l with
  | nil =>
    intro k js h
    simp [joinAll] at h
    exact ⟨h, fun i hi => absurd hi (by simp)⟩
  | cons c rest ih =>
    intro k js h
    cases hj : joinRes k c with
    | some e => simp [joinAll, hj] at h
    | none =>
      cases hrest : joinAll joinRes (k + 1) rest with
      | error e => simp [joinAll, hj, hrest] at h
      | ok js0 =>
        simp [joinAll, hj, hrest] at h
        rcases ih (k + 1) js0 hrest with ⟨hjs0, hall⟩
        constructor
        · rw [← h, hjs0]
        · intro i hi
          cases i with
          | zero => simpa using hj
          | succ n =>
            have hn : n < rest.length := by
              simpa using hi
            have := hall n hn
            have harg : k + (n + 1) = k + 1 + n := by omega
            rw [harg]
            simpa using this

/-! ### Example values used in concrete instantiations -/

/-- A session state with username `"autoplay"`, wait 5 seconds, and
`next_allowed` = 0 (a fresh connection at instant 0). -/
def appEx : App := ⟨⟨"creds", ["alice", "bob"], 5⟩, "autoplay", 0⟩

/-- A session state whose `next_allowed` is 10 and wait is 5 seconds. -/
def appMid : App := ⟨⟨"creds", ["alice", "bob"], 5⟩, "autoplay", 10⟩

/-- A qualifying trigger message from `"carol"` in channel `"alice"`. -/
def pmTrig : Privmsg := ⟨"carol", "alice", "!play"⟩

/-! ### The claims -/

/-- Claim C1: `is_interesting` returns true iff the sender is not the bot
itself, the sender's name does not end in `"bot"`, and the trimmed,
ASCII-lowercased text equals `"!play"`; in particular `"  !PLAY  "` from
a qualifying sender is accepted, `"!play now"` is rejected, and
`"!Play"` is accepted. -/
theorem is_interesting_spec (s : App) (p : Privmsg) :
    (s.is_interesting p = true ↔
      (p.name ≠ s.username ∧ endsWithStr p.name "bot" = false
        ∧ toAsciiLowercase (rustTrim p.data) = "!play"))
    ∧ appEx.is_interesting ⟨"carol", "alice", "  !PLAY  "⟩ = true
    ∧ appEx.is_interesting ⟨"carol", "alice", "!play now"⟩ = false
    ∧ appEx.is_interesting ⟨"carol", "alice", "!Play"⟩ = true := by
  refine ⟨?_, by decide, by decide, by decide⟩
  unfold App.is_interesting
  by_cases h1 : p.name = s.username
  · simp [h1]
  · by_cases h2 : endsWithStr p.name "bot"
    · simp [h1, h2]
    · by_cases h3 : toAsciiLowercase (rustTrim p.data) = "!play"
      · simp [h1, h2, h3]
      · simp [h1, h2, h3]

/-- Claim C2: `dont_spam` blocks (returns true, state unchanged) exactly
when `now` is strictly before `next_allowed`; otherwise it allows and
advances `next_allowed` to `now + wait_seconds`. Hence after an allowed
consume at `t0` with wait `W`, every consume at `t0 + d` with `d < W` is
blocked, and the consume at exactly `t0 + W` is allowed and resets the
window from that instant. -/
theorem dont_spam_spec (s : App) (now t0 d : Nat) :
    (now < s.next_allowed → s.dont_spam now = (true, s))
    ∧ (s.next_allowed ≤ now →
        s.dont_spam now
          = (false, { s with next_allowed := now + s.config.wait_seconds }))
    ∧ (s.next_allowed ≤ t0 → d < s.config.wait_seconds →
        (((s.dont_spam t0).2).dont_spam (t0 + d)).1 = true)
    ∧ (s.next_allowed ≤ t0 →
        ((s.dont_spam t0).2).dont_spam (t0 + s.config.wait_seconds)
          = (false, { s with next_allowed :=
              t0 + s.config.wait_seconds + s.config.wait_seconds })) := by
  refine ⟨dont_spam_blocked s now, dont_spam_allowed s now, ?_, ?_⟩
  · intro h0 hd
    rw [dont_spam_allowed s t0 h0]
    have hlt : t0 + d < t0 + s.config.wait_seconds := by omega
    simp [App.dont_spam, hlt]
  · intro h0
    rw [dont_spam_allowed s t0 h0]
    have hle : t0 + s.config.wait_seconds ≤ t0 + s.config.wait_seconds :=
      Nat.le_refl _
    simp [App.dont_spam]

/-- Witness for C2: with `next_allowed` = 10 and wait 5, a consume at 3
is blocked; a consume at 10 allows and moves `next_allowed` to 15; then
12 (= 10 + 2, 2 < 5) is blocked and 15 (= 10 + 5) allows, resetting the
window to 20. -/
theorem dont_spam_spec_witness :
    appMid.dont_spam 3 = (true, appMid)
    ∧ appMid.dont_spam 10
        = (false, { appMid with next_allowed := 10 + appMid.config.wait_seconds })
    ∧ (((appMid.dont_spam 10).2).dont_spam (10 + 2)).1 = true
    ∧ ((appMid.dont_spam 10).2).dont_spam (10 + appMid.config.wait_seconds)
        = (false, { appMid with next_allowed :=
            10 + appMid.config.wait_seconds + appMid.config.wait_seconds }) :=
  ⟨(dont_spam_spec appMid 3 0 0).1 (by decide),
   (dont_spam_spec appMid 10 0 0).2.1 (by decide),
   (dont_spam_spec appMid 0 10 2).2.2.1 (by decide) (by decide),
   (dont_spam_spec appMid 0 10 0).2.2.2 (by decide)⟩

/-- Claim C3: a privmsg that passes the filter and is allowed by the
cooldown gate produces exactly one outbound send, with text `"!play"`,
to the channel the triggering message came from. -/
theorem handle_trigger_sends_play (s : App) (now : Nat) (p : Privmsg)
    (hi : s.is_interesting p = true) (hg : (s.dont_spam now).1 = false) :
    (s.handle now (Commands.privmsg p)).2 = [⟨p.channel, "!play"⟩] := by
  rcases hd : s.dont_spam now with ⟨b, s1⟩
  rw [hd] at hg
  simp at hg
  subst hg
  simp [App.handle, hi, hd, say_play]

/-- Witness for C3: on the fresh session, the trigger from `"carol"` in
`"alice"` yields exactly the one send `!play` to `"alice"`. -/
theorem handle_trigger_sends_play_witness :
    (appEx.handle 0 (Commands.privmsg pmTrig)).2 = [⟨pmTrig.channel, "!play"⟩] :=
  handle_trigger_sends_play appEx 0 pmTrig (by decide) (by decide)

/-- Claim C6: a privmsg that fails the filter, and a trigger blocked by
the cooldown gate, both make `handle` return successfully with no
outbound send and the state — in particular `next_allowed` —
unchanged. -/
theorem handle_noop_spec (s : App) (now : Nat) (p : Privmsg) :
    (s.is_interesting p = false →
        s.handle now (Commands.privmsg p) = (s, []))
    ∧ ((s.dont_spam now).1 = true →
        s.handle now (Commands.privmsg p) = (s, [])) := by
  constructor
  · intro hi
    simp [App.handle, hi]
  · intro hb
    by_cases hi : s.is_interesting p
    · have hframe := dont_spam_blocked_frame s now hb
      rcases hd : s.dont_spam now with ⟨b, s1⟩
      rw [hd] at hb hframe
      simp at hb hframe
      subst hb
      subst hframe
      simp [App.handle, hi, hd]
    · simp [App.handle, hi]

/-- Witness for C6: on the mid-cooldown session (`next_allowed` = 10),
a non-trigger message at instant 3 and a blocked trigger at instant 3
both leave the state unchanged and send nothing. -/
theorem handle_noop_spec_witness :
    appMid.handle 3 (Commands.privmsg ⟨"carol", "alice", "hello"⟩) = (appMid, [])
    ∧ appMid.handle 3 (Commands.privmsg pmTrig) = (appMid, []) :=
  ⟨(handle_noop_spec appMid 3 ⟨"carol", "alice", "hello"⟩).1 (by decide),
   (handle_noop_spec appMid 3 pmTrig).2 (by decide)⟩

/-- Claim C4: the session loop hands a delivered chat message to the
filter/reply path and continues with the rest of the trace; a
non-message session event terminates the loop normally with success; a
transport error while awaiting an event propagates as fatal with the
rest of the trace ignored; and a transport error on the attempted reply
send likewise aborts the loop. -/
theorem run_event_semantics (s : App) (ev : MsgEvent) (e : String)
    (rest : List Step) :
    App.run s (Step.sessionEnd :: rest) = Except.ok (s, [])
    ∧ App.run s (Step.transportErr e :: rest) = Except.error e
    ∧ (ev.sendErr = none →
        App.run s (Step.message ev :: rest)
          = Except.map (fun r => (r.1, (s.handle ev.time ev.cmd).2 ++ r.2))
              (App.run (s.handle ev.time ev.cmd).1 rest))
    ∧ (∀ e2, ev.sendErr = some e2 → (s.handle ev.time ev.cmd).2 ≠ [] →
        App.run s (Step.message ev :: rest) = Except.error e2) := by
  refine ⟨rfl, rfl, ?_, ?_⟩
  · intro hse
    rcases hh : s.handle ev.time ev.cmd with ⟨s1, sends⟩
    have hrs : runStep s ev = Except.ok (s1, sends) := by
      simp [runStep, hh, hse]
    cases hr : App.run s1 rest with
    | error e2 => simp [App.run, hrs, hh, hr, Except.map]
    | ok pr => simp [App.run, hrs, hh, hr, Except.map]
  · intro e2 hse hne
    rcases hh : s.handle ev.time ev.cmd with ⟨s1, sends⟩
    rw [hh] at hne
    cases sends with
    | nil => simp at hne
    | cons x xs =>
      have hrs : runStep s ev = Except.error e2 := by
        simp [runStep, hh, hse]
      simp [App.run, hrs]

/-- Witness for C4: a non-privmsg event with no send failure steps the
loop onward, and a trigger whose reply send fails with `"boom"` aborts
the loop with that error. -/
theorem run_event_semantics_witness :
    App.run appEx [Step.message ⟨0, Commands.other "join", none⟩]
      = Except.map
          (fun r => (r.1, (appEx.handle 0 (Commands.other "join")).2 ++ r.2))
          (App.run (appEx.handle 0 (Commands.other "join")).1 [])
    ∧ App.run appEx [Step.message ⟨0, Commands.privmsg pmTrig, some "boom"⟩]
        = Except.error "boom" :=
  ⟨(run_event_semantics appEx ⟨0, Commands.other "join", none⟩ "x" []).2.2.1 rfl,
   (run_event_semantics appEx ⟨0, Commands.privmsg pmTrig, some "boom"⟩ "x"
      []).2.2.2 "boom" rfl (by decide)⟩

/-- Claim C5: `connect` propagates a transport connect failure as is;
when every join succeeds it establishes the session having joined
exactly the configured channel list, in order and with duplicates
preserved, and with `next_allowed` initialized to the connection
instant; and whenever it does succeed, every single join (one per list
position, duplicates included) succeeded — no session exists with a
partial channel set. -/
theorem connect_joins_spec (connectRes : Except String String)
    (joinRes : Nat → String → Option String) (t : Nat) (cfg : Config) :
    (∀ e, connectRes = Except.error e →
        App.connect connectRes joinRes t cfg = Except.error e)
    ∧ (∀ u, connectRes = Except.ok u → (∀ i c, joinRes i c = none) →
        App.connect connectRes joinRes t cfg
          = Except.ok (⟨cfg, u, t⟩, cfg.channels))
    ∧ (∀ app js, App.connect connectRes joinRes t cfg = Except.ok (app, js) →
        js = cfg.channels ∧ app.config = cfg ∧ app.next_allowed = t
          ∧ ∀ i (h : i < cfg.channels.length),
              joinRes i (cfg.channels.get ⟨i, h⟩) = none) := by
  refine ⟨?_, ?_, ?_⟩
  · intro e he
    simp [App.connect, he]
  · intro u hu hall
    simp [App.connect, hu, joinAll_all_none joinRes hall]
  · intro app js h
    cases hc : connectRes with
    | error e => simp [App.connect, hc] at h
    | ok u =>
      cases hj : joinAll joinRes 0 cfg.channels with
      | error e => simp [App.connect, hc, hj] at h
      | ok joined =>
        simp [App.connect, hc, hj] at h
        rcases joinAll_ok_inv joinRes cfg.channels 0 joined hj with ⟨hje, hjall⟩
        rcases h with ⟨happ, hjs⟩
        refine ⟨by rw [← hjs, hje], by rw [← happ], by rw [← happ], ?_⟩
        intro i hi
        simpa using hjall i hi

/-- Witness for C5: connecting with channel list `["a", "b", "a"]` and
all joins succeeding yields the session with exactly those channels
joined in order (the duplicate `"a"` joined twice); a failed connect
propagates its error; and the success inversion holds at that
instance. -/
theorem connect_joins_spec_witness :
    App.connect (Except.error "refused") (fun _ _ => none) 7
        ⟨"creds", ["a", "b", "a"], 3⟩ = Except.error "refused"
    ∧ App.connect (Except.ok "autoplay") (fun _ _ => none) 7
        ⟨"creds", ["a", "b", "a"], 3⟩
        = Except.ok (⟨⟨"creds", ["a", "b", "a"], 3⟩, "autoplay", 7⟩,
            ["a", "b", "a"]) :=
  ⟨(connect_joins_spec (Except.error "refused") (fun _ _ => none) 7
      ⟨"creds", ["a", "b", "a"], 3⟩).1 "refused" rfl,
   (connect_joins_spec (Except.ok "autoplay") (fun _ _ => none) 7
      ⟨"creds", ["a", "b", "a"], 3⟩).2.1 "autoplay" rfl (fun _ _ => rfl)⟩

/-- Claim C8: after a successful `connect` at instant `t`, the session's
`next_allowed` equals `t`, so the first trigger arriving at any instant
`now ≥ t` is allowed by the cooldown gate regardless of the configured
wait duration. -/
theorem first_trigger_allowed (connectRes : Except String String)
    (joinRes : Nat → String → Option String) (t : Nat) (cfg : Config)
    (app : App) (js : List String) (now : Nat)
    (h : App.connect connectRes joinRes t cfg = Except.ok (app, js)) :
    app.next_allowed = t ∧ (t ≤ now → (app.dont_spam now).1 = false) := by
  cases hc : connectRes with
  | error e => simp [App.connect, hc] at h
  | ok u =>
    cases hj : joinAll joinRes 0 cfg.channels with
    | error e => simp [App.connect, hc, hj] at h
    | ok joined =>
      simp [App.connect, hc, hj] at h
      rcases h with ⟨happ, _⟩
      have hna : app.next_allowed = t := by rw [← happ]
      refine ⟨hna, fun hle => ?_⟩
      rw [dont_spam_allowed app now (by omega)]

/-- Witness for C8: a session connected at instant 7 with wait 99 has
`next_allowed` = 7 and allows a trigger at instant 8. -/
theorem first_trigger_allowed_witness :
    (⟨⟨"creds", ["alice"], 99⟩, "autoplay", 7⟩ : App).next_allowed = 7
    ∧ ((⟨⟨"creds", ["alice"], 99⟩, "autoplay", 7⟩ : App).dont_spam 8).1
        = false :=
  ⟨(first_trigger_allowed (Except.ok "autoplay") (fun _ _ => none) 7
      ⟨"creds", ["alice"], 99⟩ ⟨⟨"creds", ["alice"], 99⟩, "autoplay", 7⟩
      ["alice"] 8 rfl).1,
   (first_trigger_allowed (Except.ok "autoplay") (fun _ _ => none) 7
      ⟨"creds", ["alice"], 99⟩ ⟨⟨"creds", ["alice"], 99⟩, "autoplay", 7⟩
      ["alice"] 8 rfl).2 (by decide)⟩

/-- Claim C9: `next_allowed` never decreases: one `dont_spam` consume,
one `handle` of any message, and any successfully completed run of the
loop all leave it at or above its previous value. This holds even
without the claim's assumption that the current time is at or past the
instant at which `next_allowed` was last set. -/
theorem next_allowed_monotone (s : App) (now : Nat) (m : Commands)
    (steps : List Step) :
    s.next_allowed ≤ ((s.dont_spam now).2).next_allowed
    ∧ s.next_allowed ≤ ((s.handle now m).1).next_allowed
    ∧ ∀ s2 sends, App.run s steps = Except.ok (s2, sends) →
        s.next_allowed ≤ s2.next_allowed :=
  ⟨dont_spam_mono s now, handle_mono s now m,
   fun s2 sends h => run_mono steps s s2 sends h⟩

/-- Witness for C9: on the fresh session, one allowed trigger followed by
session end moves `next_allowed` from 0 up to 5. -/
theorem next_allowed_monotone_witness :
    appEx.next_allowed
      ≤ (⟨appEx.config, "autoplay", 5⟩ : App).next_allowed :=
  (next_allowed_monotone appEx 0 (Commands.privmsg pmTrig)
    [Step.message ⟨0, Commands.privmsg pmTrig, none⟩, Step.sessionEnd]).2.2
    ⟨appEx.config, "autoplay", 5⟩ [⟨"alice", "!play"⟩] rfl

/-- Claim C10: a received chat event that is not a privmsg makes `handle`
return success immediately with no send and the state unchanged, and the
loop continues with the next event exactly as if the event had not
occurred. -/
theorem non_privmsg_noop (s : App) (now : Nat) (tag : String)
    (ev : MsgEvent) (rest : List Step) :
    s.handle now (Commands.other tag) = (s, [])
    ∧ (ev.cmd = Commands.other tag →
        App.run s (Step.message ev :: rest) = App.run s rest) := by
  constructor
  · rfl
  · intro hcmd
    have hh : s.handle ev.time ev.cmd = (s, []) := by
      rw [hcmd]
      rfl
    have hrs : runStep s ev = Except.ok (s, []) := by
      cases hse : ev.sendErr <;> simp [runStep, hh, hse]
    cases hr : App.run s rest with
    | error e => simp [App.run, hrs, hr]
    | ok pr => simp [App.run, hrs, hr]

/-- Witness for C10: a `Join` command event on the fresh session leaves
the state unchanged, and the loop result on the one-event trace equals
the result on the empty trace. -/
theorem non_privmsg_noop_witness :
    appEx.handle 0 (Commands.other "Join") = (appEx, [])
    ∧ App.run appEx [Step.message ⟨0, Commands.other "Join", none⟩]
        = App.run appEx [] :=
  ⟨(non_privmsg_noop appEx 0 "Join" ⟨0, Commands.other "Join", none⟩ []).1,
   (non_privmsg_noop appEx 0 "Join" ⟨0, Commands.other "Join", none⟩ []).2 rfl⟩

/-- Counterexample to claim C7 as stated: with path `"autoplay.toml"`,
a readable file and a failing toml parse, `Config.load` reports
`"couldn't parse config file"` — a message in which the offending file
path does not occur, contradicting that both error messages report the
path. -/
theorem config_load_parse_error_cex :
    Config.load "autoplay.toml" (Except.ok "junk") (fun _ => none)
      = Except.error "couldn't parse config file"
    ∧ strContainsSub "couldn't parse config file" "autoplay.toml" = false :=
  ⟨rfl, by decide⟩

/-- Claim C7 (amended): config loading fails before the connection
oracles are consulted, with an error for an unreadable file that reports
the offending path, and with a distinct, fixed error message for an
unparseable file — which does not include the path. -/
theorem config_load_messages (p : String) (contents : String)
    (readFile : Except String String) (parseToml : String → Option Config)
    (connectRes : Except String String)
    (joinRes : Nat → String → Option String) (t : Nat) :
    (∀ e, readFile = Except.error e →
        Config.load p readFile parseToml
            = Except.error ("couldn't read config file " ++ p)
          ∧ strContainsSub ("couldn't read config file " ++ p) p = true)
    ∧ (readFile = Except.ok contents → parseToml contents = none →
        Config.load p readFile parseToml
          = Except.error "couldn't parse config file")
    ∧ (∀ msg, Config.load p readFile parseToml = Except.error msg →
        mainFlow p readFile parseToml connectRes joinRes t
          = Except.error msg) := by
  refine ⟨?_, ?_, ?_⟩
  · intro e he
    exact ⟨by simp [Config.load, he], strContainsSub_of_append _ p⟩
  · intro hr hp
    simp [Config.load, hr, hp]
  · intro msg hmsg
    simp [mainFlow, hmsg]

/-- Witness for the amended C7: at path `"autoplay.toml"`, an unreadable
file reports `"couldn't read config file autoplay.toml"` (which contains
the path) and an unparseable file reports the fixed parse message. -/
theorem config_load_messages_witness :
    (Config.load "autoplay.toml" (Except.error "io") (fun _ => none)
        = Except.error ("couldn't read config file " ++ "autoplay.toml")
      ∧ strContainsSub ("couldn't read config file " ++ "autoplay.toml")
          "autoplay.toml" = true)
    ∧ Config.load "autoplay.toml" (Except.ok "junk") (fun _ => none)
        = Except.error "couldn't parse config file" :=
  ⟨(config_load_messages "autoplay.toml" "junk" (Except.error "io")
      (fun _ => none) (Except.ok "u") (fun _ _ => none) 0).1 "io" rfl,
   (config_load_messages "autoplay.toml" "junk" (Except.ok "junk")
      (fun _ => none) (Except.ok "u") (fun _ _ => none) 0).2.1 rfl rfl⟩
